import Mathlib

/-!
Shallow embedding of the Talabat restaurants scraper
(`main.py`, `SavingOnDrive.py`): progress-document handling,
the crawl loop's cursor bookkeeping, region completion in `run`,
per-restaurant processing, atomic progress saves, and the Google
Drive upload wrapper.  External effects (network fetches, the
filesystem, subprocess calls) are modelled as explicit outcome
oracles passed to the functions; the functions themselves follow
the Python control flow.
-/

namespace Talabat

/-- The `current_progress` sub-document of both progress files
(`main.py` lines 60-68 / 133-141): the resumption cursor. -/
structure Cursor where
  area_name : Option String
  current_page : Int
  total_pages : Int
  current_restaurant : Int
  total_restaurants : Int
  processed_restaurants : List String
  completed_pages : List Int
deriving Repr, DecidableEq

/-- Default cursor skeleton (`main.py` lines 60-68). -/
def defaultCursor : Cursor :=
  { area_name := none
    current_page := 0
    total_pages := 0
    current_restaurant := 0
    total_restaurants := 0
    processed_restaurants := []
    completed_pages := [] }

/-- `current_progress.json` document shape (`main.py` lines 56-69). -/
structure CurrentProgress where
  completed_areas : List String
  current_area_index : Nat
  current_progress : Cursor
deriving Repr, DecidableEq

/-- Default `current_progress.json` skeleton (`main.py` lines 56-69). -/
def defaultCurrentProgress : CurrentProgress :=
  { completed_areas := [], current_area_index := 0, current_progress := defaultCursor }

/-- A restaurant record as assembled by `scrape_and_save_area`
(`main.py` lines 363-399): listing identity plus the three
optional blocks, each defaulting to empty. -/
structure Restaurant where
  name : String
  cuisine : String
  url : String
  page : Int
  menu_items : List (String × List String)
  info : List (String × String)
  reviews : List (String × String)
deriving Repr, DecidableEq

/-- `scraped_progress.json` document shape (`main.py` lines 128-142):
the current-progress shape plus the `all_results` accumulator. -/
structure ScrapedProgress where
  completed_areas : List String
  current_area_index : Nat
  all_results : List (String × List Restaurant)
  current_progress : Cursor
deriving Repr, DecidableEq

/-- Default `scraped_progress.json` skeleton (`main.py` lines 128-142). -/
def defaultScrapedProgress : ScrapedProgress :=
  { completed_areas := [], current_area_index := 0, all_results := []
    current_progress := defaultCursor }

/-- `sorted(list(set(int(page) for page in pages if ... and page >= 1)))`
(`main.py` lines 83-86, 103-106, 159-162, 179-182). -/
def normalizePages (l : List Int) : List Int :=
  ((l.filter (fun p => 1 ≤ p)).dedup).insertionSort (· ≤ ·)

/-- The cursor normalization applied by both save functions before
writing (`main.py` lines 102-106 and 178-182): `completed_pages` is
sorted and deduplicated; `processed_restaurants` is left untouched. -/
def saveNormalizeCursor (c : Cursor) : Cursor :=
  { c with completed_pages := normalizePages c.completed_pages }

/-- Document written by `save_current_progress` (`main.py` lines 101-109),
as a function of the in-memory document. -/
def save_current_normalize (d : CurrentProgress) : CurrentProgress :=
  { d with current_progress := saveNormalizeCursor d.current_progress }

/-- Document written by `save_scraped_progress` (`main.py` lines 177-187). -/
def save_scraped_normalize (d : ScrapedProgress) : ScrapedProgress :=
  { d with current_progress := saveNormalizeCursor d.current_progress }

/-- Normalization `load_current_progress` applies to a structurally
valid parsed document (`main.py` lines 83-86). -/
def load_current_normalize (d : CurrentProgress) : CurrentProgress :=
  { d with current_progress := saveNormalizeCursor d.current_progress }

/-- Normalization `load_scraped_progress` applies to a structurally
valid parsed document (`main.py` lines 156-162): dedups
`processed_restaurants` and sorts/dedups `completed_pages`. -/
def load_scraped_normalize (d : ScrapedProgress) : ScrapedProgress :=
  { d with current_progress :=
      { d.current_progress with
          processed_restaurants := d.current_progress.processed_restaurants.dedup
          completed_pages := normalizePages d.current_progress.completed_pages } }

/-- Outcome of parsing a progress file that exists on disk. -/
inductive ParseOutcome (α : Type) where
  | raises
  | badStructure
  | doc (d : α)
deriving Repr, DecidableEq

/-- On-disk state of a progress file: whether `os.path.exists` holds,
and what `open` + `json.load` + the structure check yield if it does. -/
structure ProgressFile (α : Type) where
  present : Bool
  parse : ParseOutcome α
deriving Repr, DecidableEq

/-- `load_current_progress` (`main.py` lines 55-94).  A `.error`
result models an exception propagating to the caller; the function
routes every failure of the `try` body into the `except` handler,
which returns the default skeleton. -/
def load_current_progress (f : ProgressFile CurrentProgress) : Except String CurrentProgress :=
  if f.present = false then .ok defaultCurrentProgress
  else
    match
      (match f.parse with
       | .raises => .error "json.load failed"
       | .badStructure => .ok defaultCurrentProgress
       | .doc d => .ok (load_current_normalize d) : Except String CurrentProgress)
    with
    | .ok d => .ok d
    | .error _ => .ok defaultCurrentProgress

/-- `load_scraped_progress` (`main.py` lines 127-170). -/
def load_scraped_progress (f : ProgressFile ScrapedProgress) : Except String ScrapedProgress :=
  if f.present = false then .ok defaultScrapedProgress
  else
    match
      (match f.parse with
       | .raises => .error "json.load failed"
       | .badStructure => .ok defaultScrapedProgress
       | .doc d => .ok (load_scraped_normalize d) : Except String ScrapedProgress)
    with
    | .ok d => .ok d
    | .error _ => .ok defaultScrapedProgress

/-! ### Atomic save: filesystem trace (`main.py` lines 108-113 / 186-191) -/

/-- Contents of the target progress file and of the temporary file,
each as the ordered list of chunks written so far (`none` = absent). -/
structure AtomicFS where
  target : Option (List String)
  temp : Option (List String)
deriving Repr, DecidableEq

/-- One filesystem-visible step of the save sequence
`NamedTemporaryFile` / `json.dump` writes / `flush`+`fsync` /
`os.replace` (`main.py` lines 108-113). -/
inductive SaveStep where
  | createTemp
  | writeChunk (c : String)
  | fsyncTemp
  | renameOverTarget
deriving Repr, DecidableEq

/-- Effect of one save step on the filesystem.  `os.replace` is the
only step that touches the target, and it installs the whole temp
contents in one atomic action. -/
def applySaveStep (fs : AtomicFS) : SaveStep → AtomicFS
  | .createTemp => { fs with temp := some [] }
  | .writeChunk c => { fs with temp := fs.temp.map (fun s => s ++ [c]) }
  | .fsyncTemp => fs
  | .renameOverTarget =>
      match fs.temp with
      | some s => { target := some s, temp := none }
      | none => fs

/-- The ordered filesystem steps both save functions perform when
writing serialized document `chunks` (`main.py` lines 108-113 and
186-191): create the temp file in the working directory, stream the
serialized document into it, flush+fsync, atomically rename. -/
def saveTrace (chunks : List String) : List SaveStep :=
  .createTemp :: (chunks.map SaveStep.writeChunk) ++ [.fsyncTemp, .renameOverTarget]

/-- Run a list of save steps against a filesystem state. -/
def runSave (fs : AtomicFS) (steps : List SaveStep) : AtomicFS :=
  steps.foldl applySaveStep fs

/-! ### Save control flow with failures (`main.py` lines 96-125 / 172-207) -/

/-- Which operations of one save invocation succeed:
`json.dumps` validation (line 107), `NamedTemporaryFile` creation,
the `json.dump`+`flush`+`fsync` block, and `os.replace`. -/
structure SaveOutcome where
  serializeOk : Bool
  createTempOk : Bool
  dumpOk : Bool
  renameOk : Bool
deriving Repr, DecidableEq

/-- Disk state seen by one save invocation: the target file's content
and whether this invocation's temporary file currently exists. -/
structure DiskState where
  target : Option String
  tempOnDisk : Bool
deriving Repr, DecidableEq

/-- Information carried by an exception raised inside the `try` body:
the disk state at the raise point and whether `temp_filename` had
already been assigned (`main.py` line 112: it is assigned only after
`json.dump`/`flush`/`fsync` succeed). -/
structure SaveRaise where
  disk : DiskState
  tempRecorded : Bool
deriving Repr, DecidableEq

/-- The `try` body of `save_current_progress` / `save_scraped_progress`
(`main.py` lines 100-113, 176-191) as a function of the operation
outcomes.  On success it returns the new disk state and the recorded
temp filename flag. -/
def saveBody (o : SaveOutcome) (c : String) (d0 : DiskState) : Except SaveRaise (DiskState × Bool) :=
  if o.serializeOk = false then .error ⟨d0, false⟩
  else if o.createTempOk = false then .error ⟨d0, false⟩
  else
    let d1 : DiskState := { d0 with tempOnDisk := true }
    if o.dumpOk = false then .error ⟨d1, false⟩
    else if o.renameOk = false then .error ⟨d1, true⟩
    else .ok (⟨some c, false⟩, true)

/-- The `finally` block (`main.py` lines 119-125, 201-207): remove the
temporary file only if `temp_filename` was assigned and the file exists. -/
def finallyCleanup (d : DiskState) (tempRecorded : Bool) : DiskState :=
  if tempRecorded = true ∧ d.tempOnDisk = true then { d with tempOnDisk := false } else d

/-- A whole save invocation (`main.py` lines 96-125 / 172-207): the
`try` body, the all-catching `except` handler, then the `finally`
cleanup.  The returned `Bool` records whether an exception was caught
(and logged); a `.error` result would model an exception propagating
to the caller. -/
def save_progress_file (o : SaveOutcome) (c : String) (d0 : DiskState) :
    Except String (DiskState × Bool) :=
  match saveBody o c d0 with
  | .ok (d, rec) => .ok (finallyCleanup d rec, false)
  | .error r => .ok (finallyCleanup r.disk r.tempRecorded, true)

/-! ### Page loop cursor bookkeeping (`main.py` lines 281-453) -/

/-- A restaurant as it appears in a listing page, before the detail
fetches (`_extract_restaurants_from_page` output fields used by
`scrape_and_save_area`). -/
structure ListingEntry where
  name : String
  cuisine : String
  url : String
deriving Repr, DecidableEq

/-- The bounded-retry listing fetch (`main.py` lines 302-318):
3 attempts; an attempt fails when `get_page_restaurants` returns no
restaurants (it catches its own exceptions and returns `[]`) or
raises; after the last failed attempt the page's listing is taken to
be empty. -/
def fetchPageWithRetry (attempt : Nat → List ListingEntry) : List ListingEntry :=
  if attempt 0 ≠ [] then attempt 0
  else if attempt 1 ≠ [] then attempt 1
  else if attempt 2 ≠ [] then attempt 2
  else []

/-- Cursor fields touched by one iteration of the page loop. -/
structure PageState where
  completed_pages : List Int
  current_page : Int
  current_restaurant : Int
deriving Repr, DecidableEq

/-- Cursor effect of one page iteration (`main.py` lines 287-289,
297, 445-449): a page already in `completed_pages` is skipped;
otherwise `current_page` is set, the page's restaurants are processed
(they never touch `completed_pages`), and on reaching the end of the
page the page number is appended to `completed_pages` (it is not yet
present) and `current_restaurant` is reset — regardless of whether
the listing fetch failed and yielded zero restaurants. -/
def pageStep (s : PageState) (page : Int) : PageState :=
  if page ∈ s.completed_pages then s
  else
    { completed_pages := s.completed_pages ++ [page]
      current_page := page
      current_restaurant := 0 }

/-- The integers `start, start+1, …, total` — the iteration space of
`range(start_page, total_pages + 1)` (`main.py` line 281). -/
def intRange (start total : Int) : List Int :=
  (List.range (total + 1 - start).toNat).map (fun i : Nat => start + (i : Int))

/-- The whole page loop's effect on the cursor fields
(`main.py` lines 281-453). -/
def regionPageLoop (start total : Int) (s0 : PageState) : PageState :=
  (intRange start total).foldl pageStep s0

/-! ### Per-restaurant processing (`main.py` lines 361-420) -/

/-- Outcome of one guarded detail fetch for a restaurant:
`timeout` models `timeout_task` returning `None` (or the fetch
returning a falsy value), `value` a successful fetch, `raises` an
exception that escapes to the `except` handler at line 411. -/
inductive FetchOutcome (α : Type) where
  | timeout
  | value (a : α)
  | raises
deriving Repr, DecidableEq

/-- `restaurant['info'].get('Reviews URL')` over the embedded
association-list info block. -/
def infoReviewsUrl (info : List (String × String)) : Option String :=
  (info.find? (fun kv => kv.1 = "Reviews URL")).map (fun kv => kv.2)

/-- The guard at `main.py` line 391: the info block exposes a truthy
Reviews URL different from `'Not Available'`. -/
def wantsReviews (info : List (String × String)) : Bool :=
  match infoReviewsUrl info with
  | some u => u ≠ "" && u ≠ "Not Available"
  | none => false

/-- Appending a restaurant name to `processed_restaurants`
(`main.py` lines 400-402, 416-418): only nonempty names not already
present are appended. -/
def addProcessed (p : List String) (n : String) : List String :=
  if n ≠ "" ∧ n ∉ p then p ++ [n] else p

/-- Processing of one restaurant that passed the skip checks
(`main.py` lines 361-420), as a function of the three detail-fetch
outcomes.  Returns the updated region accumulator (`all_area_results`)
and the updated `processed_restaurants` list.  On an exception the
`except` handler marks the restaurant processed but does not append it
to the accumulator; on timed-out fetches the corresponding block keeps
its `setdefault` empty value and the restaurant is appended. -/
def processRestaurant (e : ListingEntry) (page : Int)
    (menuO : FetchOutcome (List (String × List String)))
    (infoO : FetchOutcome (List (String × String)))
    (revO : FetchOutcome (List (String × String)))
    (acc : List Restaurant) (processed : List String) :
    List Restaurant × List String :=
  let r0 : Restaurant :=
    { name := e.name, cuisine := e.cuisine, url := e.url, page := page
      menu_items := [], info := [], reviews := [] }
  match menuO with
  | .raises => (acc, addProcessed processed e.name)
  | _ =>
    let r1 := match menuO with
      | .value m => { r0 with menu_items := m }
      | _ => r0
    match infoO with
    | .raises => (acc, addProcessed processed e.name)
    | _ =>
      let r2 := match infoO with
        | .value i => { r1 with info := i }
        | _ => r1
      if wantsReviews r2.info then
        match revO with
        | .raises => (acc, addProcessed processed e.name)
        | .value rv => (acc ++ [{ r2 with reviews := rv }], addProcessed processed e.name)
        | .timeout => (acc ++ [r2], addProcessed processed e.name)
      else (acc ++ [r2], addProcessed processed e.name)

/-! ### Region finalization and completion in `run`
(`main.py` lines 455-495, 810-823) -/

/-- Results of the two `upload_to_drive` calls at the end of
`scrape_and_save_area` (`main.py` lines 469-477). -/
structure UploadResults where
  excel : Bool
  csv : Bool
deriving Repr, DecidableEq

/-- Cursor reset at the end of `scrape_and_save_area`
(`main.py` lines 479-488): every cursor field returns to its default,
whatever the two upload results were. -/
def finalizeAreaCursor (_c : Cursor) (_u : UploadResults) : Cursor :=
  defaultCursor

/-- Outcome oracle for one area iteration of `run`
(`main.py` lines 810-833): whether `scrape_and_save_area` (or the
Excel bookkeeping after it) raised, and the upload results it
observed internally. -/
structure AreaRun where
  scrapeRaises : Bool
  uploads : UploadResults
deriving Repr, DecidableEq

/-- Effect of one `run` loop iteration on `completed_areas`
(`main.py` lines 810-833): the area is appended exactly when
`scrape_and_save_area` returned without an exception and the area was
not already recorded; the upload results play no role. -/
def runAreaStep (completed : List String) (area : String) (o : AreaRun) : List String :=
  if o.scrapeRaises = true then completed
  else if area ∈ completed then completed
  else completed ++ [area]

/-! ### Startup area selection (`main.py` lines 743-802) -/

/-- The configured region list of `run` (`main.py` lines 744-770),
by name. -/
def ahmadiAreas : List String :=
  ["الظهر", "الرقه", "هدية", "المنقف", "أبو حليفة", "الفنطاس", "العقيلة",
   "الصباحية", "الأحمدي", "الفحيحيل", "شرق الأحمدي", "ضاحية علي صباح السالم",
   "ميناء عبد الله", "بنيدر", "الزور", "الجليعة", "المهبولة", "النويصيب",
   "الخيران", "الوفرة", "ضاحية فهد الأحمد", "ضاحية جابر العلي",
   "مدينة صباح الأحمد السكنية", "مدينة صباح الأحمد البحرية", "ميناء الأحمدي"]

/-- Index of the first area equal to `r`, mirroring the
`for idx ... if area_name == resuming_area: ...; break` search
(`main.py` lines 785-794). -/
def firstIndexOf (r : String) : List String → Option Nat
  | [] => none
  | a :: rest => if a = r then some 0 else (firstIndexOf r rest).map (fun i => i + 1)

/-- The loop index used for skipping (`main.py` lines 783-794): the
persisted `current_area_index`, overridden by the index of the
persisted in-flight area name when that name is truthy and occurs in
the configured list. -/
def effectiveIndex (areas : List String) (resuming : Option String) (savedIdx : Nat) : Nat :=
  match resuming with
  | some r =>
      if r = "" then savedIdx
      else match firstIndexOf r areas with
        | some i => i
        | none => savedIdx
  | none => savedIdx

/-- `area_name == resuming_area` as evaluated at `main.py` line 797
(with `resuming_area = None`, the comparison never matches). -/
def matchesResuming (resuming : Option String) (name : String) : Bool :=
  match resuming with
  | some r => name = r
  | none => false

/-- An area survives the first `continue` of the loop at
`main.py` lines 796-799: it is not completed, or it is the resuming
area. -/
def keepArea (completed : List String) (resuming : Option String) (n : String) : Bool :=
  !(decide (n ∈ completed)) || matchesResuming resuming n

/-- The `run` area loop's selection, accumulating the names of the
areas whose bodies execute (`main.py` lines 796-802): an area is
skipped when it is completed and not the resuming area, or when its
index is below the effective index. -/
def processedAreasAux (completed : List String) (cur : Nat) (resuming : Option String) :
    Nat → List String → List String
  | _, [] => []
  | idx, name :: rest =>
      if cur ≤ idx ∧ keepArea completed resuming name = true then
        name :: processedAreasAux completed cur resuming (idx + 1) rest
      else processedAreasAux completed cur resuming (idx + 1) rest

/-- The list of areas `run` actually processes, in order
(`main.py` lines 783-802). -/
def processedAreas (areas : List String) (completed : List String) (savedIdx : Nat)
    (resuming : Option String) : List String :=
  processedAreasAux completed (effectiveIndex areas resuming savedIdx) resuming 0 areas

/-! ### Drive upload wrapper (`main.py` lines 720-741,
`SavingOnDrive.py` lines 153-176) -/

/-- Environment/outcome oracle for one `upload_to_drive` call:
whether `TALABAT_GCLOUD_KEY_JSON` is set, whether `authenticate()`
succeeds, the file id produced in each of the two configured target
folders (`SavingOnDrive.target_folders` has exactly two entries), and
whether some unexpected exception is raised inside the `try` body. -/
structure DriveEnv where
  credsPresent : Bool
  authOk : Bool
  folder1Upload : Option String
  folder2Upload : Option String
  rogue : Bool
deriving Repr, DecidableEq

/-- `SavingOnDrive.upload_to_multiple_folders`
(`SavingOnDrive.py` lines 153-176): the list of file ids of the
successful per-folder uploads; `create_date_folder` and `upload_file`
catch their own exceptions and signal failure by `None`. -/
def upload_to_multiple_folders (env : DriveEnv) : List String :=
  [env.folder1Upload, env.folder2Upload].filterMap id

/-- The `try` body of `MainScraper.upload_to_drive`
(`main.py` lines 723-741). -/
def uploadBody (env : DriveEnv) : Except String Bool :=
  if env.rogue = true then .error "exception"
  else if env.credsPresent = false then .ok false
  else if env.authOk = false then .ok false
  else .ok (decide ((upload_to_multiple_folders env).length = 2))

/-- `MainScraper.upload_to_drive` (`main.py` lines 720-741): the
`except` handler converts every exception into `False`. -/
def upload_to_drive (env : DriveEnv) : Except String Bool :=
  match uploadBody env with
  | .ok b => .ok b
  | .error _ => .ok false

/-- The `@retry(tries=n, ...)` decorator (`retry` library): re-invoke
the wrapped call on exception, up to `n` attempts in total, and
return the first non-exceptional result. -/
def retryCall {ε α : Type} : Nat → (Unit → Except ε α) → Except ε α
  | 0, f => f ()
  | 1, f => f ()
  | n + 2, f =>
      match f () with
      | .ok a => .ok a
      | .error _ => retryCall (n + 1) f

/-- Number of attempts `@retry(tries=n)` actually makes. -/
def retryCount {ε α : Type} : Nat → (Unit → Except ε α) → Nat
  | 0, _ => 1
  | 1, _ => 1
  | n + 2, f =>
      match f () with
      | .ok _ => 1
      | .error _ => 1 + retryCount (n + 1) f

/-! ## Helper lemmas -/

theorem mem_normalizePages {l : List Int} {a : Int} :
    a ∈ normalizePages l ↔ a ∈ l ∧ 1 ≤ a := by
  unfold normalizePages
  rw [List.Perm.mem_iff (List.perm_insertionSort _ _)]
  simp [List.mem_dedup, List.mem_filter]

theorem sorted_normalizePages (l : List Int) :
    (normalizePages l).Sorted (· ≤ ·) :=
  List.sorted_insertionSort _ _

theorem nodup_normalizePages (l : List Int) : (normalizePages l).Nodup :=
  ((List.perm_insertionSort _ _).nodup_iff).mpr (List.nodup_dedup _)

/-! ## Claims -/

/-- C10: `upload_to_drive` never raises to its caller — missing
credentials, failed authentication, and any exception inside the body
all yield `.ok false`; it returns `True` exactly when both configured
destination folders produced a file id (`len(file_ids) == 2`); and
because failures are returned rather than raised, the `@retry`
decorator performs exactly one attempt and never changes the result. -/
theorem c10_upload_to_drive_total (env : DriveEnv) :
    (∃ b, upload_to_drive env = .ok b) ∧
    (upload_to_drive env = .ok true ↔
      (env.rogue = false ∧ env.credsPresent = true ∧ env.authOk = true ∧
       env.folder1Upload.isSome = true ∧ env.folder2Upload.isSome = true)) ∧
    retryCall 3 (fun _ => upload_to_drive env) = upload_to_drive env ∧
    retryCount 3 (fun _ => upload_to_drive env) = 1 := by
  obtain ⟨cp, ao, f1, f2, rg⟩ := env
  cases cp <;> cases ao <;> cases rg <;> cases f1 <;> cases f2 <;>
    simp [upload_to_drive, uploadBody, upload_to_multiple_folders, retryCall, retryCount]

/-- C1 counterexample: with both export/upload calls failing and no
exception, the region is still appended to `completed_areas` and its
cursor is reset, so it will not be retried — contradicting the claim
that a region enters `completed_areas` only after export+upload has
returned success at least once. -/
theorem c1_upload_failure_still_completed :
    runAreaStep [] "الظهر" ⟨false, ⟨false, false⟩⟩ = ["الظهر"] ∧
    "الظهر" ∉ ([] : List String) ∧
    finalizeAreaCursor defaultCursor ⟨false, false⟩ = defaultCursor := by
  refine ⟨rfl, by simp, rfl⟩

/-- C1 amended: a region enters `completed_areas` exactly when
`scrape_and_save_area` returns without an uncaught exception (or the
region was already recorded); the export/upload results play no role
in completion, and the region's cursor is reset to the defaults
regardless of the upload results. -/
theorem c1_region_completion_exception_gated (completed : List String) (area : String)
    (o : AreaRun) :
    runAreaStep completed area o = runAreaStep completed area ⟨o.scrapeRaises, ⟨true, true⟩⟩ ∧
    (area ∈ runAreaStep completed area o ↔ area ∈ completed ∨ o.scrapeRaises = false) ∧
    (∀ c u, finalizeAreaCursor c u = defaultCursor) := by
  obtain ⟨sr, u⟩ := o
  refine ⟨rfl, ?_, fun c u => rfl⟩
  cases sr <;> by_cases h : area ∈ completed <;> simp [runAreaStep, h]

/-- C3 counterexample: neither save function deduplicates
`processed_restaurants` — a document carrying a duplicate entry is
written with the duplicate intact by both
`save_current_progress` and `save_scraped_progress`. -/
theorem c3_save_keeps_duplicate_processed :
    ¬ ((save_current_normalize
        { completed_areas := [], current_area_index := 0,
          current_progress :=
            { defaultCursor with processed_restaurants := ["a", "a"] } }
       ).current_progress.processed_restaurants.Nodup) ∧
    ¬ ((save_scraped_normalize
        { completed_areas := [], current_area_index := 0, all_results := [],
          current_progress :=
            { defaultCursor with processed_restaurants := ["a", "a"] } }
       ).current_progress.processed_restaurants.Nodup) := by
  constructor <;> simp [save_current_normalize, save_scraped_normalize, saveNormalizeCursor]

/-- C3 amended: every save re-normalizes `completed_pages` — the
written list is sorted, duplicate-free, and holds exactly the
in-memory pages that are at least 1 — but `processed_restaurants`
is written unchanged by both save functions; that list is
deduplicated only when `load_scraped_progress` reads the scraped
document back. -/
theorem c3_save_normalizes_completed_pages (d : CurrentProgress) (e : ScrapedProgress) :
    (save_current_normalize d).current_progress.completed_pages.Sorted (· ≤ ·) ∧
    (save_current_normalize d).current_progress.completed_pages.Nodup ∧
    (∀ p, p ∈ (save_current_normalize d).current_progress.completed_pages ↔
       p ∈ d.current_progress.completed_pages ∧ 1 ≤ p) ∧
    (save_current_normalize d).current_progress.processed_restaurants
       = d.current_progress.processed_restaurants ∧
    (save_scraped_normalize e).current_progress.completed_pages.Sorted (· ≤ ·) ∧
    (save_scraped_normalize e).current_progress.completed_pages.Nodup ∧
    (∀ p, p ∈ (save_scraped_normalize e).current_progress.completed_pages ↔
       p ∈ e.current_progress.completed_pages ∧ 1 ≤ p) ∧
    (save_scraped_normalize e).current_progress.processed_restaurants
       = e.current_progress.processed_restaurants ∧
    (load_scraped_normalize e).current_progress.processed_restaurants.Nodup := by
  refine ⟨sorted_normalizePages _, nodup_normalizePages _, fun p => mem_normalizePages,
    rfl, sorted_normalizePages _, nodup_normalizePages _, fun p => mem_normalizePages,
    rfl, ?_⟩
  exact List.nodup_dedup _

/-- C4: for every on-disk state of the two progress files — missing,
unparseable, or structurally invalid — the load functions return the
default skeleton document and never propagate an exception; a
well-formed file yields the parsed document (with the load-time
normalization of the derived cursor fields applied). -/
theorem c4_load_repairs_and_never_raises (f : ProgressFile CurrentProgress)
    (g : ProgressFile ScrapedProgress) :
    (∃ d, load_current_progress f = .ok d) ∧
    (∃ d, load_scraped_progress g = .ok d) ∧
    (f.present = false → load_current_progress f = .ok defaultCurrentProgress) ∧
    (f.parse = .raises → load_current_progress f = .ok defaultCurrentProgress) ∧
    (f.parse = .badStructure → load_current_progress f = .ok defaultCurrentProgress) ∧
    (∀ d, f.parse = .doc d → f.present = true →
       load_current_progress f = .ok (load_current_normalize d)) ∧
    (g.present = false → load_scraped_progress g = .ok defaultScrapedProgress) ∧
    (g.parse = .raises → load_scraped_progress g = .ok defaultScrapedProgress) ∧
    (g.parse = .badStructure → load_scraped_progress g = .ok defaultScrapedProgress) ∧
    (∀ d, g.parse = .doc d → g.present = true →
       load_scraped_progress g = .ok (load_scraped_normalize d)) := by
  obtain ⟨p, pr⟩ := f
  obtain ⟨q, qr⟩ := g
  cases p <;> cases q <;> cases pr <;> cases qr <;>
    simp [load_current_progress, load_scraped_progress]

/-- C4 witness: a concrete unparseable current-progress file and a
concrete missing scraped-progress file both load as the defaults. -/
theorem c4_load_repairs_witness :
    load_current_progress ⟨true, .raises⟩ = .ok defaultCurrentProgress ∧
    load_scraped_progress ⟨false, .raises⟩ = .ok defaultScrapedProgress := by
  have h := c4_load_repairs_and_never_raises ⟨true, .raises⟩ ⟨false, .raises⟩
  exact ⟨h.2.2.2.1 rfl, h.2.2.2.2.2.2.1 rfl⟩

theorem self_mem_addProcessed {p : List String} {n : String} (h : n ≠ "") :
    n ∈ addProcessed p n := by
  unfold addProcessed
  by_cases hp : n ∈ p
  · simp [hp]
  · simp [h, hp]

theorem mem_addProcessed_of_mem {p : List String} {n m : String} (h : m ∈ p) :
    m ∈ addProcessed p n := by
  unfold addProcessed
  split
  · exact List.mem_append_left _ h
  · exact h

/-- C2 counterexample: a restaurant whose menu fetch raises (rather
than timing out) is not appended to the region accumulator at all —
only its name is marked processed — contradicting the claim that an
entity whose processing raises is still recorded with whatever
partial data was obtained. -/
theorem c2_exception_drops_entity :
    (processRestaurant ⟨"X", "Pizza", "u"⟩ 1 .raises .timeout .timeout [] []).1 = [] ∧
    (processRestaurant ⟨"X", "Pizza", "u"⟩ 1 .raises .timeout .timeout [] []).2 = ["X"] :=
  ⟨rfl, rfl⟩

/-- C2 amended: the accumulator is append-only and any appended
record carries the entity's identity with the unfetched blocks
defaulting to empty (never null); an entity whose sub-fetches merely
time out is recorded as a partial record; but an entity whose
processing raises an exception is **not** appended to the
accumulator — it is only marked processed (when its name is
nonempty) so it is not retried on a later run. -/
theorem c2_entity_recording (e : ListingEntry) (page : Int)
    (menuO : FetchOutcome (List (String × List String)))
    (infoO : FetchOutcome (List (String × String)))
    (revO : FetchOutcome (List (String × String)))
    (acc : List Restaurant) (processed : List String) :
    ((processRestaurant e page menuO infoO revO acc processed).1 = acc ∨
      ∃ r, (processRestaurant e page menuO infoO revO acc processed).1 = acc ++ [r] ∧
        r.name = e.name ∧ r.cuisine = e.cuisine ∧ r.url = e.url ∧ r.page = page) ∧
    ((processRestaurant e page menuO infoO revO acc processed).1 = acc ↔
      (menuO = .raises ∨ infoO = .raises ∨
        (wantsReviews (match infoO with | .value i => i | _ => []) = true ∧
          revO = .raises))) ∧
    (processRestaurant e page .timeout .timeout .timeout acc processed
      = (acc ++ [{ name := e.name, cuisine := e.cuisine, url := e.url, page := page
                   menu_items := [], info := [], reviews := [] }],
         addProcessed processed e.name)) ∧
    (e.name ≠ "" → e.name ∈ (processRestaurant e page menuO infoO revO acc processed).2) ∧
    (∀ m ∈ processed, m ∈ (processRestaurant e page menuO infoO revO acc processed).2) := by
  have hacc : ∀ r : Restaurant, acc ++ [r] ≠ acc := by
    intro r h
    have := congrArg List.length h
    simp at this
  refine ⟨?_, ?_, ?_, ?_, ?_⟩
  · cases menuO <;> cases infoO <;>
      first
        | exact Or.inl rfl
        | (simp only [processRestaurant]
           split <;>
             (try cases revO) <;>
             first
               | exact Or.inl rfl
               | exact Or.inr ⟨_, rfl, rfl, rfl, rfl, rfl⟩)
  · cases menuO <;> cases infoO <;>
      simp only [processRestaurant] <;>
      (try (split <;> cases revO)) <;> simp_all [hacc]
  · rfl
  · intro h
    cases menuO <;> cases infoO <;>
      simp only [processRestaurant] <;>
      first
        | exact self_mem_addProcessed h
        | (split <;> [cases revO; skip] <;> exact self_mem_addProcessed h)
  · intro m hm
    cases menuO <;> cases infoO <;>
      simp only [processRestaurant] <;>
      first
        | exact mem_addProcessed_of_mem hm
        | (split <;> [cases revO; skip] <;> exact mem_addProcessed_of_mem hm)

/-- C2 witness: a concrete entity with every sub-fetch timing out is
recorded as a partial record and marked processed. -/
theorem c2_entity_recording_witness :
    processRestaurant ⟨"X", "Pizza", "u"⟩ 4 .timeout .timeout .timeout [] []
      = ([{ name := "X", cuisine := "Pizza", url := "u", page := 4
            menu_items := [], info := [], reviews := [] }], ["X"]) ∧
    "X" ∈ (processRestaurant ⟨"X", "Pizza", "u"⟩ 4 .timeout .timeout .timeout [] []).2 := by
  have h := c2_entity_recording ⟨"X", "Pizza", "u"⟩ 4 .timeout .timeout .timeout [] []
  exact ⟨h.2.2.1, h.2.2.2.1 (by decide)⟩

theorem target_runSave_of_no_rename (fs : AtomicFS) (steps : List SaveStep)
    (h : SaveStep.renameOverTarget ∉ steps) : (runSave fs steps).target = fs.target := by
  induction steps generalizing fs with
  | nil => rfl
  | cons s rest ih =>
    simp only [List.mem_cons, not_or] at h
    have hstep : (applySaveStep fs s).target = fs.target := by
      cases s with
      | createTemp => rfl
      | writeChunk c => rfl
      | fsyncTemp => rfl
      | renameOverTarget => exact absurd rfl h.1
    calc (runSave fs (s :: rest)).target
        = (runSave (applySaveStep fs s) rest).target := rfl
      _ = (applySaveStep fs s).target := ih _ h.2
      _ = fs.target := hstep

theorem runSave_writeChunks (t : Option (List String)) (acc chunks : List String) :
    runSave ⟨t, some acc⟩ (chunks.map SaveStep.writeChunk) = ⟨t, some (acc ++ chunks)⟩ := by
  induction chunks generalizing acc with
  | nil => simp [runSave]
  | cons c cs ih =>
    have : runSave ⟨t, some acc⟩ ((c :: cs).map SaveStep.writeChunk)
        = runSave ⟨t, some (acc ++ [c])⟩ (cs.map SaveStep.writeChunk) := rfl
    rw [this, ih]
    simp

theorem runSave_full (chunks : List String) (t0 : Option (List String)) :
    runSave ⟨t0, none⟩ (saveTrace chunks) = ⟨some chunks, none⟩ := by
  have h1 : runSave ⟨t0, none⟩ (saveTrace chunks)
      = runSave (runSave ⟨t0, some []⟩ (chunks.map SaveStep.writeChunk))
          [SaveStep.fsyncTemp, SaveStep.renameOverTarget] := by
    unfold runSave saveTrace
    rw [List.foldl_cons, List.foldl_append]
    rfl
  rw [h1, runSave_writeChunks]
  simp [runSave, applySaveStep]

theorem rename_not_mem_front (chunks : List String) :
    SaveStep.renameOverTarget ∉
      (SaveStep.createTemp :: (chunks.map SaveStep.writeChunk) ++ [SaveStep.fsyncTemp]) := by
  simp [List.mem_append, List.mem_map]

theorem saveTrace_eq_front_append (chunks : List String) :
    saveTrace chunks
      = (SaveStep.createTemp :: (chunks.map SaveStep.writeChunk) ++ [SaveStep.fsyncTemp])
        ++ [SaveStep.renameOverTarget] := by
  simp [saveTrace]

/-- C5: the save sequence writes the serialized document chunk by
chunk into the temporary file, fsyncs, and then installs it over the
target in one atomic rename — after any interrupted prefix of the
sequence the target file holds either its previous content or the
complete new document, never a partial write, and the completed
sequence leaves exactly the new document. -/
theorem c5_atomic_save (chunks : List String) (t0 : Option (List String)) (n : Nat) :
    (runSave ⟨t0, none⟩ (saveTrace chunks)).target = some chunks ∧
    ((runSave ⟨t0, none⟩ ((saveTrace chunks).take n)).target = t0 ∨
      (runSave ⟨t0, none⟩ ((saveTrace chunks).take n)).target = some chunks) := by
  constructor
  · rw [runSave_full]
  · by_cases h : (saveTrace chunks).length ≤ n
    · rw [List.take_of_length_le h, runSave_full]
      exact Or.inr rfl
    · left
      apply target_runSave_of_no_rename
      intro hmem
      have hsub := List.take_subset n (saveTrace chunks)
      have hlen : n ≤ ((SaveStep.createTemp :: (chunks.map SaveStep.writeChunk)
          ++ [SaveStep.fsyncTemp])).length := by
        have := saveTrace_eq_front_append chunks
        have hl : (saveTrace chunks).length
            = ((SaveStep.createTemp :: (chunks.map SaveStep.writeChunk)
                ++ [SaveStep.fsyncTemp])).length + 1 := by
          rw [this]; simp
        omega
      rw [saveTrace_eq_front_append chunks, List.take_append_of_le_length hlen] at hmem
      exact rename_not_mem_front chunks (List.take_subset _ _ hmem)

theorem mem_pageStep_preserve {s : PageState} {q p : Int}
    (h : p ∈ s.completed_pages) : p ∈ (pageStep s q).completed_pages := by
  unfold pageStep
  split
  · exact h
  · exact List.mem_append_left _ h

theorem self_mem_pageStep (s : PageState) (q : Int) :
    q ∈ (pageStep s q).completed_pages := by
  unfold pageStep
  split
  · assumption
  · simp

theorem mem_completed_foldl (ps : List Int) (s0 : PageState) (p : Int)
    (h : p ∈ ps ∨ p ∈ s0.completed_pages) :
    p ∈ (ps.foldl pageStep s0).completed_pages := by
  induction ps generalizing s0 with
  | nil => simpa using h
  | cons q rest ih =>
    rw [List.foldl_cons]
    apply ih
    rcases h with h | h
    · rcases List.mem_cons.mp h with rfl | h
      · exact Or.inr (self_mem_pageStep s0 p)
      · exact Or.inl h
    · exact Or.inr (mem_pageStep_preserve h)

theorem mem_intRange {a b p : Int} : p ∈ intRange a b ↔ a ≤ p ∧ p ≤ b := by
  unfold intRange
  simp only [List.mem_map, List.mem_range]
  constructor
  · rintro ⟨i, hi, rfl⟩
    omega
  · rintro ⟨h1, h2⟩
    exact ⟨(p - a).toNat, by omega, by omega⟩

/-- C6: when the listing fetch fails on all three bounded attempts,
the page is treated as having zero restaurants, and whatever the
per-page fetch outcomes are, the page loop still processes every page
of the region — a failing page is marked completed like an empty page
and never aborts the loop. -/
theorem c6_failed_page_degrades (attempt : Nat → List ListingEntry)
    (h : ∀ i, i < 3 → attempt i = []) :
    fetchPageWithRetry attempt = [] ∧
    ∀ (start total : Int) (s0 : PageState), ∀ p ∈ intRange start total,
      p ∈ (regionPageLoop start total s0).completed_pages := by
  constructor
  · unfold fetchPageWithRetry
    rw [h 0 (by omega), h 1 (by omega), h 2 (by omega)]
    simp
  · intro start total s0 p hp
    exact mem_completed_foldl _ _ _ (Or.inl hp)

/-- C6 witness: with every attempt failing, a concrete page range is
still fully completed and the fetch degrades to the empty listing. -/
theorem c6_failed_page_degrades_witness :
    fetchPageWithRetry (fun _ => []) = [] ∧
    (2 : Int) ∈ (regionPageLoop 1 3 ⟨[], 0, 0⟩).completed_pages := by
  have h := c6_failed_page_degrades (fun _ => []) (fun i _ => rfl)
  exact ⟨h.1, h.2 1 3 ⟨[], 0, 0⟩ 2 (by decide)⟩

theorem pageLoop_invariant (ps : List Int) (s0 : PageState) (total : Int)
    (hps : ∀ p ∈ ps, 1 ≤ p ∧ p ≤ total)
    (h0 : ∀ q ∈ s0.completed_pages, 1 ≤ q ∧ q ≤ total) :
    (∀ q ∈ (ps.foldl pageStep s0).completed_pages, 1 ≤ q ∧ q ≤ total) ∧
    s0.completed_pages ⊆ (ps.foldl pageStep s0).completed_pages := by
  induction ps generalizing s0 with
  | nil => exact ⟨h0, fun a ha => ha⟩
  | cons q rest ih =>
    rw [List.foldl_cons]
    have hq := hps q (List.mem_cons_self _ _)
    have hstep : ∀ x ∈ (pageStep s0 q).completed_pages, 1 ≤ x ∧ x ≤ total := by
      intro x hx
      unfold pageStep at hx
      split at hx
      · exact h0 x hx
      · simp only [List.mem_append, List.mem_singleton] at hx
        rcases hx with hx | rfl
        · exact h0 x hx
        · exact hq
    have hrest := fun p hp => hps p (List.mem_cons_of_mem _ hp)
    obtain ⟨hinv, hsub⟩ := ih (pageStep s0 q) hrest hstep
    exact ⟨hinv, fun a ha => hsub (mem_pageStep_preserve ha)⟩

/-- C8: starting from a cursor state whose `completed_pages` lie in
`[1, totalPages]` and a start page of at least 1, after any number of
page-loop iterations `completed_pages` is still a subset of
`[1, totalPages]`, it contains everything it started with, and each
further iteration only extends it — pages are added when completed
and never removed until the region-completion reset. -/
theorem c8_completed_pages_invariant (start total : Int) (s0 : PageState) (n : Nat)
    (hstart : 1 ≤ start)
    (h0 : ∀ q ∈ s0.completed_pages, 1 ≤ q ∧ q ≤ total) :
    (∀ q ∈ (((intRange start total).take n).foldl pageStep s0).completed_pages,
       1 ≤ q ∧ q ≤ total) ∧
    s0.completed_pages ⊆ (((intRange start total).take n).foldl pageStep s0).completed_pages ∧
    (((intRange start total).take n).foldl pageStep s0).completed_pages ⊆
      (((intRange start total).take (n + 1)).foldl pageStep s0).completed_pages := by
  have htake : ∀ m : Nat, ∀ p ∈ (intRange start total).take m, 1 ≤ p ∧ p ≤ total := by
    intro m p hp
    have := mem_intRange.mp (List.take_subset m _ hp)
    omega
  obtain ⟨hinv, hsub⟩ := pageLoop_invariant ((intRange start total).take n) s0 total
    (htake n) h0
  refine ⟨hinv, hsub, ?_⟩
  rw [List.take_succ, List.foldl_append]
  cases hg : (intRange start total)[n]? with
  | none => simp
  | some x =>
      intro a ha
      simp only [Option.toList_some, List.foldl_cons, List.foldl_nil]
      exact mem_pageStep_preserve ha

/-- C8 witness: a concrete in-bounds cursor state keeps its completed
page across two loop iterations of the range `[1, 2]`. -/
theorem c8_completed_pages_invariant_witness :
    (1 : Int) ∈ (((intRange 1 2).take 1).foldl pageStep
      (⟨[1], 1, 0⟩ : PageState)).completed_pages := by
  have h := c8_completed_pages_invariant 1 2 ⟨[1], 1, 0⟩ 1 (by decide) (by decide)
  exact h.2.1 (by decide)

theorem firstIndexOf_drop {r : String} :
    ∀ {l : List String} {i : Nat}, firstIndexOf r l = some i →
      ∃ t, l.drop i = r :: t := by
  intro l
  induction l with
  | nil => intro i h; simp [firstIndexOf] at h
  | cons a rest ih =>
    intro i h
    unfold firstIndexOf at h
    by_cases ha : a = r
    · simp [ha] at h
      subst h
      exact ⟨rest, by simp [ha]⟩
    · simp [ha, Option.map_eq_some'] at h
      obtain ⟨j, hj, rfl⟩ := h
      obtain ⟨t, ht⟩ := ih hj
      exact ⟨t, by simpa using ht⟩

theorem exists_firstIndexOf {r : String} :
    ∀ {l : List String}, r ∈ l → ∃ i, firstIndexOf r l = some i := by
  intro l
  induction l with
  | nil => intro h; simp at h
  | cons a rest ih =>
    intro h
    unfold firstIndexOf
    by_cases ha : a = r
    · exact ⟨0, by simp [ha]⟩
    · rcases List.mem_cons.mp h with rfl | h
      · exact absurd rfl ha
      · obtain ⟨j, hj⟩ := ih h
        exact ⟨j + 1, by simp [ha, hj]⟩

theorem processedAreasAux_eq (completed : List String) (resuming : Option String)
    (cur : Nat) :
    ∀ (l : List String) (k : Nat),
      processedAreasAux completed cur resuming k l
        = (l.drop (cur - k)).filter (keepArea completed resuming) := by
  intro l
  induction l with
  | nil => intro k; simp [processedAreasAux]
  | cons a rest ih =>
    intro k
    by_cases h : cur ≤ k
    · have hk : cur - k = 0 := by omega
      have hk1 : cur - (k + 1) = 0 := by omega
      rw [processedAreasAux, ih (k + 1), hk, hk1]
      simp only [List.drop_zero, List.filter_cons]
      by_cases hkeep : keepArea completed resuming a = true
      · simp [h, hkeep]
      · simp [h, hkeep]
    · have hm : cur - k = (cur - (k + 1)) + 1 := by omega
      rw [processedAreasAux, ih (k + 1), hm]
      simp [h, List.drop_succ_cons]

theorem processedAreas_eq (areas completed : List String) (savedIdx : Nat)
    (resuming : Option String) :
    processedAreas areas completed savedIdx resuming
      = (areas.drop (effectiveIndex areas resuming savedIdx)).filter
          (keepArea completed resuming) := by
  unfold processedAreas
  rw [processedAreasAux_eq]
  simp

/-- C7 counterexample: with no completed areas, a saved index of 0,
and the persisted cursor naming the second configured area
"الرقه", the first configured area "الظهر" — which is not in
`completed_areas` — is skipped by the run loop and never processed,
contradicting the claim that every region outside `completedRegions`
other than the resumed one is processed. -/
theorem c7_skips_uncompleted_area :
    "الظهر" ∈ ahmadiAreas ∧
    "الظهر" ∉ ([] : List String) ∧
    "الظهر" ∉ processedAreas ahmadiAreas [] 0 (some "الرقه") := by
  refine ⟨by decide, by decide, by decide⟩

/-- C7 amended: when the persisted cursor names a region `r` that is
in the configured list, nonempty, and not completed, the run loop
resumes exactly the suffix of the configured list starting at `r`'s
first index, filtered by the completion check: `r` itself is
processed regardless of its position, every completed region other
than `r` is skipped, and the processed regions keep the configured
order — but configured regions positioned before `r`'s index are
skipped even when they are not completed. -/
theorem c7_resume_selection (areas completed : List String) (savedIdx : Nat) (r : String)
    (hr : r ≠ "") (hmem : r ∈ areas) (hnc : r ∉ completed) :
    ∃ i, firstIndexOf r areas = some i ∧
      processedAreas areas completed savedIdx (some r)
        = (areas.drop i).filter (keepArea completed (some r)) ∧
      r ∈ processedAreas areas completed savedIdx (some r) ∧
      (∀ n ∈ completed, n ≠ r → n ∉ processedAreas areas completed savedIdx (some r)) ∧
      (processedAreas areas completed savedIdx (some r)).Sublist areas := by
  obtain ⟨i, hi⟩ := exists_firstIndexOf hmem
  have hidx : effectiveIndex areas (some r) savedIdx = i := by
    simp [effectiveIndex, hr, hi]
  have heq := processedAreas_eq areas completed savedIdx (some r)
  rw [hidx] at heq
  refine ⟨i, hi, heq, ?_, ?_, ?_⟩
  · obtain ⟨t, ht⟩ := firstIndexOf_drop hi
    rw [heq, ht]
    apply List.mem_filter.mpr
    refine ⟨List.mem_cons_self _ _, ?_⟩
    simp [keepArea, matchesResuming, hnc]
  · intro n hn hne
    rw [heq]
    intro hmem2
    have := (List.mem_filter.mp hmem2).2
    simp [keepArea, matchesResuming] at this
    rcases this with h | h
    · exact h hn
    · exact hne h
  · rw [heq]
    exact (List.filter_sublist _).trans (List.drop_sublist _ _)

/-- C7 witness: the resumed area "الرقه" is itself processed in the
concrete configured list. -/
theorem c7_resume_selection_witness :
    "الرقه" ∈ processedAreas ahmadiAreas [] 0 (some "الرقه") := by
  have h := c7_resume_selection ahmadiAreas [] 0 "الرقه" (by decide) (by decide) (by decide)
  obtain ⟨i, _, _, hmem, _⟩ := h
  exact hmem

/-- C9 counterexample: when `json.dump`/`flush`/`fsync` into the
temporary file fails (after `NamedTemporaryFile` created it but
before `temp_filename` is assigned at line 112), the exception is
caught and the target file is untouched, but the cleanup block does
not remove the temporary file — it is leaked — contradicting the
claim that every failure removes the temporary file in the cleanup
block. -/
theorem c9_dump_failure_leaks_temp :
    save_progress_file ⟨true, true, false, true⟩ "new" ⟨some "old", false⟩
      = .ok (⟨some "old", true⟩, true) := rfl

/-- C9 amended: both save functions route every serialization or I/O
failure into the `except` handler, so a save never propagates an
exception; on any caught failure the previously persisted target file
is unchanged, and on success the target holds the new content; but
the temporary file survives the cleanup block exactly when the
failure hit the `json.dump`/`flush`/`fsync` step, because
`temp_filename` is only assigned after that step — only a failure of
the rename step has its temporary file removed. -/
theorem c9_save_swallows_errors (o : SaveOutcome) (c : String) (d0 : DiskState)
    (h0 : d0.tempOnDisk = false) :
    (∃ r, save_progress_file o c d0 = .ok r) ∧
    (∀ d b, save_progress_file o c d0 = .ok (d, b) →
      (b = true → d.target = d0.target) ∧
      (b = false → d.target = some c) ∧
      (d.tempOnDisk = true ↔
        o.serializeOk = true ∧ o.createTempOk = true ∧ o.dumpOk = false)) := by
  obtain ⟨s, ct, dp, rn⟩ := o
  obtain ⟨tg, te⟩ := d0
  simp only at h0
  subst h0
  cases s <;> cases ct <;> cases dp <;> cases rn <;>
    simp [save_progress_file, saveBody, finallyCleanup]

/-- C9 witness: a concrete failed-serialization save is caught and
leaves the disk untouched. -/
theorem c9_save_swallows_errors_witness :
    ∃ r, save_progress_file ⟨false, true, true, true⟩ "new" ⟨some "old", false⟩ = .ok r :=
  (c9_save_swallows_errors ⟨false, true, true, true⟩ "new" ⟨some "old", false⟩ rfl).1

end Talabat
